import Mathlib

/-!
Verification of the drive4data toolchain against its specification.

The Python sources are shallowly embedded: dictionaries of numeric fields
become records of `Option ℚ` (a missing key is `none`), float arithmetic
becomes exact rational arithmetic, in-place mutation becomes explicit state
passing, and code that can raise (`KeyError`, `TypeError`, failed `assert`)
returns `Except PyErr`.  Third-party collaborators (the webike activity
engine, the iss4e helpers, `datetime`) are passed in as parameters or, where
the specification pins down their meaning, modelled from the specification.
-/

namespace Drive4data

/-- A Python runtime error surfaced by the embedded code. -/
inductive PyErr where
  | keyError : PyErr
  | typeError : PyErr
  | assertionError : PyErr
deriving DecidableEq, Repr

/-- `d[k]` on a Python dict: the value, or a `KeyError` when the key is absent. -/
def pyGet {α : Type} (o : Option α) : Except PyErr α :=
  match o with
  | some v => Except.ok v
  | none => Except.error PyErr.keyError

/-- `float(x)` applied to a dict lookup: a `TypeError` when the value is `None`
(or a `KeyError` when the key is absent; the embedding does not distinguish
the two, both are errors). -/
def pyGetNum {α : Type} (o : Option α) : Except PyErr α :=
  match o with
  | some v => Except.ok v
  | none => Except.error PyErr.typeError

/-- Modelled from the spec: the store-configured epoch units, used as keys of
the external `TO_SECONDS` conversion table (`iss4e.db.influxdb`, a dependency
boundary): seconds `'s'`, nanoseconds `'n'`, minutes `'m'`, hours `'h'`. -/
inductive TimeEpoch where
  | s : TimeEpoch
  | n : TimeEpoch
  | m : TimeEpoch
  | h : TimeEpoch
deriving DecidableEq, Repr

/-- Modelled from the spec: `TO_SECONDS`, the external table of seconds per
epoch unit (`iss4e.db.influxdb`, a dependency boundary). -/
def TO_SECONDS : TimeEpoch → ℚ
  | TimeEpoch.s => 1
  | TimeEpoch.n => 1 / 1000000000
  | TimeEpoch.m => 60
  | TimeEpoch.h => 3600

/-- One telemetry sample, with the fields the charge-cycle detector touches.
`time` is an epoch value in the store-configured unit; the remaining fields
are optional dict entries. -/
structure Sample where
  time : ℚ
  veh_speed : Option ℚ
  hvbatt_soc : Option ℚ
  last_movement : Option ℚ

/-- Replace the `last_movement` entry of a sample
(`sample['last_movement'] = ...`). -/
def setLastMovement (s : Sample) (v : ℚ) : Sample :=
  ⟨s.time, s.veh_speed, s.hvbatt_soc, some v⟩

/-- The configuration state of `ChargeCycleDetection.__init__`
(`drive4data/data/charge.py`): durations are kept in seconds. -/
structure ChargeConfig where
  time_epoch : TimeEpoch
  max_delay : ℚ
  max_merge_gap : ℚ
  min_cycle_duration : ℚ

/-- `ChargeCycleDetection.__init__`: `max_delay` defaults to
`timedelta(hours=1) / timedelta(seconds=1) = 3600`, `max_merge_gap` to
30 minutes and `min_cycle_duration` to 10 minutes.  A `some` argument is a
caller-supplied keyword, `none` takes the default. -/
def chargeCycleInit (ε : TimeEpoch) (max_delay max_merge_gap min_cycle_duration : Option ℚ) :
    ChargeConfig :=
  ⟨ε, max_delay.getD 3600, max_merge_gap.getD 1800, min_cycle_duration.getD 600⟩

/-- `ChargeCycleDerivDetection.__init__`: `kwargs.setdefault('max_merge_gap',
timedelta(hours=2))` before delegating to the base constructor, so the
subclass default (2 hours) wins over the base default (30 minutes). -/
def chargeCycleDerivInit (ε : TimeEpoch) (max_delay max_merge_gap min_cycle_duration : Option ℚ) :
    ChargeConfig :=
  chargeCycleInit ε max_delay (some (max_merge_gap.getD 7200)) min_cycle_duration

/-- Modelled from the spec: `InfluxActivityDetection.get_duration`
(`drive4data/data/activity.py`, a repository file not included in the
sources) — the elapsed time between two samples, converted from the
configured epoch unit to seconds, so that it can be compared against the
second-valued thresholds such as `max_delay`. -/
def get_duration (ε : TimeEpoch) (a b : Sample) : ℚ :=
  (b.time - a.time) * TO_SECONDS ε

/-- `ChargeCycleDetection.check_movement`: the detector state is the
`last_movement` timestamp (initially 0, retained across the whole stream).
`sample.get('veh_speed') and sample['veh_speed'] > 0` is truthy exactly when
`veh_speed` is present and positive; on movement the state becomes the
sample's time, and every sample is stamped with the current state.  Returns
(new state, stamped sample, has_movement). -/
def check_movement (st : ℚ) (s : Sample) : ℚ × Sample × Bool :=
  let has_movement : Bool :=
    match s.veh_speed with
    | some v => decide (0 < v)
    | none => false
  let st2 : ℚ := if has_movement then s.time else st
  (st2, setLastMovement s st2, has_movement)

/-- `ChargeCycleDetection.is_start`: a cycle may start only while the vehicle
shows no movement. -/
def is_start (st : ℚ) (s : Sample) : ℚ × Sample × Bool :=
  let r := check_movement st s
  (r.1, r.2.1, !r.2.2)

/-- `ChargeCycleDetection.is_end`: movement resumed, or the elapsed time
since the previous sample exceeds `max_delay`. -/
def is_end (cfg : ChargeConfig) (st : ℚ) (s previous : Sample) : ℚ × Sample × Bool :=
  let r := check_movement st s
  (r.1, r.2.1, r.2.2 || decide (get_duration cfg.time_epoch previous s > cfg.max_delay))

/-- A detected cycle, bounded by its two boundary samples.  The second field
is named `end` in the source; `end` is reserved in Lean, so it is `stop`
here. -/
structure Cycle where
  start : Sample
  stop : Sample

/-- `ChargeCycleDetection.check_reject_reason`: assert that `last_movement`
agrees at both boundaries, then discard with `"delta_soc<10%"` when the SoC
gain is below 10, else defer to the base class (here a parameter, since the
engine base class is an external collaborator). -/
def check_reject_reason (base_reject : Cycle → Option String) (c : Cycle) :
    Except PyErr (Option String) := do
  let lm_start ← pyGet c.start.last_movement
  let lm_stop ← pyGet c.stop.last_movement
  if lm_start = lm_stop then
    let soc_stop ← pyGet c.stop.hvbatt_soc
    let soc_start ← pyGet c.start.hvbatt_soc
    if soc_stop - soc_start < 10 then
      Except.ok (some "delta_soc<10%")
    else
      Except.ok (base_reject c)
  else
    Except.error PyErr.assertionError

/-- `ChargeCycleDetection.can_merge`: the base-class merge test (a
parameter), then the SoC-drop test, then the `last_movement` assertions for
both cycles, then the no-intervening-movement test. -/
def can_merge (base_can_merge : Cycle → Cycle → Bool) (last_cycle new_cycle : Cycle) :
    Except PyErr Bool := do
  if base_can_merge last_cycle new_cycle then
    let soc_new ← pyGet new_cycle.start.hvbatt_soc
    let soc_last ← pyGet last_cycle.stop.hvbatt_soc
    if soc_new - soc_last < -2 then
      Except.ok false
    else
      let lm_ls ← pyGet last_cycle.start.last_movement
      let lm_le ← pyGet last_cycle.stop.last_movement
      if lm_ls = lm_le then
        let lm_ns ← pyGet new_cycle.start.last_movement
        let lm_ne ← pyGet new_cycle.stop.last_movement
        if lm_ns = lm_ne then
          if lm_ns > last_cycle.stop.time then
            Except.ok false
          else
            Except.ok true
        else
          Except.error PyErr.assertionError
      else
        Except.error PyErr.assertionError
  else
    Except.ok false

/-- Boundary samples of a small completed cycle used to instantiate the
rejection theorem: SoC rises from 50 to 55, `last_movement` 0 at both ends. -/
def wStartSample : Sample := ⟨0, none, some 50, some 0⟩

/-- End boundary sample for the rejection instance. -/
def wStopSample : Sample := ⟨1000, none, some 55, some 0⟩

/-- A prior cycle (SoC 60 to 70, ends at time 100) used to instantiate the
merge theorem. -/
def wLastCycle : Cycle := ⟨⟨0, none, some 60, some 0⟩, ⟨100, none, some 70, some 0⟩⟩

/-- An adjacent later cycle (SoC 69 at start, `last_movement` 0 ≤ 100) used
to instantiate the merge theorem. -/
def wNewCycle : Cycle := ⟨⟨150, none, some 69, some 0⟩, ⟨200, none, some 71, some 0⟩⟩

/-- The arguments `ChargeCycleDerivDetection.__call__` passes to the
external helper `smooth` (`iss4e.util.math`): source field, target field,
smoothing factor `alpha`. -/
structure SmoothArgs where
  attr_source : String
  attr_target : String
  alpha : ℚ
deriving DecidableEq, Repr

/-- The arguments `ChargeCycleDerivDetection.__call__` passes to the
external helper `differentiate` (`iss4e.util.math`): source field, target
field, the time attribute, and the `delta_time` step the derivative is
scaled to. -/
structure DiffArgs where
  attr_source : String
  attr_target : String
  attr_time : String
  delta_time : ℚ
deriving DecidableEq, Repr

/-- `smooth(cycle_samples, 'hvbatt_soc', 'soc_smooth', alpha=0.95)` from
`ChargeCycleDerivDetection.__call__`. -/
def derivSmoothArgs : SmoothArgs := ⟨"hvbatt_soc", "soc_smooth", 95 / 100⟩

/-- `differentiate(cycle_samples, 'soc_smooth', 'soc_diff',
attr_time='time', delta_time=TO_SECONDS['h'] / TO_SECONDS['n'])` from
`ChargeCycleDerivDetection.__call__`: note the hard-coded nanosecond key. -/
def derivDiffArgs : DiffArgs :=
  ⟨"soc_smooth", "soc_diff", "time", TO_SECONDS TimeEpoch.h / TO_SECONDS TimeEpoch.n⟩

/-- `ChargeCycleDerivDetection.__call__`: smooth the raw SoC, differentiate
the smoothed signal, then run the inherited detection.  The two external
helpers and the inherited call are parameters; the embedded method fixes
their arguments and their order of application. -/
def chargeCycleDerivCall {σ ρ : Type}
    (smooth : SmoothArgs → σ → σ) (differentiate : DiffArgs → σ → σ)
    (base_call : σ → ρ) (cycle_samples : σ) : ρ :=
  base_call (differentiate derivDiffArgs (smooth derivSmoothArgs cycle_samples))

/-- The claim's wording for the derivative time step: 1 hour expressed in
the configured epoch unit, i.e. the hours-to-configured-unit conversion
factor (stated for comparison with the source's `derivDiffArgs`). -/
def claimedDerivDeltaTime (ε : TimeEpoch) : ℚ :=
  TO_SECONDS TimeEpoch.h / TO_SECONDS ε

/-- A cycle stats accumulator (`drive4data/data/trips.py`): a Python dict
of named numeric aggregates. -/
def Stats : Type := String → Option ℚ

/-- `stats[k] = v` on a stats dict. -/
def setStat (s : Stats) (k : String) (v : ℚ) : Stats :=
  fun k2 => if k2 = k then some v else s k2

/-- Python truthiness of `stats.get(name)`: `None` and `0.0` are falsy,
every other float is truthy. -/
def truthy : Option ℚ → Bool
  | some v => decide (v ≠ 0)
  | none => false

/-- `TripDetection.make_avg`: skip `None` (and, in the float original,
non-finite) values — every rational is finite, so only the `None` guard
remains; average 50/50 with the previous value when the key exists,
initialize otherwise. -/
def make_avg (accumulator : Stats) (name : String) (value : Option ℚ) : Stats :=
  match value with
  | none => accumulator
  | some v =>
    match accumulator name with
    | some old => setStat accumulator name ((old + v) / 2)
    | none => setStat accumulator name v

/-- `TripDetection.merge_avg`: combine one named average of two partial
accumulators into `stats`, deciding presence by Python truthiness of
`stats1.get(name)` / `stats2.get(name)`. -/
def merge_avg (name : String) (stats stats1 stats2 : Stats) : Stats :=
  if truthy (stats1 name) && truthy (stats2 name) then
    setStat stats name (((stats1 name).getD 0 + (stats2 name).getD 0) / 2)
  else if truthy (stats1 name) then
    setStat stats name ((stats1 name).getD 0)
  else if truthy (stats2 name) then
    setStat stats name ((stats2 name).getD 0)
  else
    stats

/-- `TripDetection.merge_stats`: start from the base-class merge (the
engine base class is an external collaborator, here a parameter), sum
`est_distance` (a `KeyError` when either side lacks it), then fold the four
named averages with `merge_avg`. -/
def merge_stats (base_merge : Stats → Stats → Stats) (stats1 stats2 : Stats) :
    Except PyErr Stats := do
  let stats := base_merge stats1 stats2
  let d1 ← pyGet (stats1 "est_distance")
  let d2 ← pyGet (stats2 "est_distance")
  let stats := setStat stats "est_distance" (d1 + d2)
  let stats := merge_avg "avg_current" stats stats1 stats2
  let stats := merge_avg "avg_voltage" stats stats1 stats2
  let stats := merge_avg "avg_fuel_rate" stats stats1 stats2
  let stats := merge_avg "temp_avg" stats stats1 stats2
  Except.ok stats

/-- The amended description of one merged average: the unweighted midpoint
when both sides hold a non-zero value, the lone non-zero value when exactly
one side does, and otherwise whatever the base-class merge left in place
(stated in the spec's vocabulary, for comparison with `merge_stats`). -/
def mergedAvgSpec (name : String) (stats1 stats2 base : Stats) : Option ℚ :=
  if truthy (stats1 name) && truthy (stats2 name) then
    some (((stats1 name).getD 0 + (stats2 name).getD 0) / 2)
  else if truthy (stats1 name) then
    stats1 name
  else if truthy (stats2 name) then
    stats2 name
  else
    base name

/-- The claim's phrase "holds a non-zero value" for a stats slot. -/
def holdsNonZero (o : Option ℚ) : Prop := ∃ v, o = some v ∧ v ≠ 0

/-- A partial-cycle accumulator with `est_distance` 1 and a stored
`avg_current` of exactly 0.0 (the truthiness edge case). -/
def cexStats1 : Stats :=
  fun k => if k = "est_distance" then some 1 else if k = "avg_current" then some 0 else none

/-- A partial-cycle accumulator with `est_distance` 2 and `avg_current`
10. -/
def cexStats2 : Stats :=
  fun k => if k = "est_distance" then some 2 else if k = "avg_current" then some 10 else none

/-- Python's `round` (banker's rounding): the nearest integer, ties to the
even neighbour. -/
def pyRound (q : ℚ) : ℤ :=
  if q - Int.floor q = 1 / 2 then
    (if Int.floor q % 2 = 0 then Int.floor q else Int.floor q + 1)
  else round q

/-- The external calendar boundary (`datetime.fromtimestamp` composed with
`webike.util.plot.to_hour_bin`, `datetime.weekday`, `datetime.month`): each
function maps a POSIX timestamp in seconds to its bucket value. -/
structure Calendar where
  to_hour_bin : ℚ → ℕ
  weekday : ℚ → ℕ
  month : ℚ → ℕ

/-- A stored trip event as read back by `extract_hist`
(`drive4data/data/trips.py`): `time` and `duration` are always present on
serialized cycles, the remaining fields are optional. -/
structure TripRecord where
  time : ℚ
  duration : ℚ
  est_distance : Option ℚ
  outside_air_temp : Option ℚ
  soc_start : Option ℚ
  soc_end : Option ℚ
deriving DecidableEq, Repr

/-- The aggregate trip histogram dataset (`webike.data.Trips.HIST_DATA`
buckets touched by `extract_hist`). -/
structure TripHist where
  start_times : List ℕ
  start_weekday : List ℕ
  start_month : List ℕ
  durations : List ℤ
  distances : List ℚ
  trip_temp : List ℚ
  initial_soc : List ℚ
  final_soc : List ℚ
deriving DecidableEq, Repr

/-- Append an optional value when it is present
(`if trip_key in trip and trip[trip_key] is not None`). -/
def appendOpt (l : List ℚ) (o : Option ℚ) : List ℚ :=
  match o with
  | some v => l ++ [v]
  | none => l

/-- The per-trip body of `extract_hist` (`drive4data/data/trips.py`): four
unconditional appends, then one guarded append per optional field. -/
def extract_hist_trips (cal : Calendar) (ε : TimeEpoch) (h : TripHist) (trip : TripRecord) :
    TripHist :=
  let trip_time := trip.time * TO_SECONDS ε
  ⟨h.start_times ++ [cal.to_hour_bin trip_time],
   h.start_weekday ++ [cal.weekday trip_time],
   h.start_month ++ [cal.month trip_time],
   h.durations ++ [pyRound (trip.duration * TO_SECONDS TimeEpoch.n / 60)],
   appendOpt h.distances trip.est_distance,
   appendOpt h.trip_temp trip.outside_air_temp,
   appendOpt h.initial_soc trip.soc_start,
   appendOpt h.final_soc trip.soc_end⟩

/-- A stored charge-cycle event as read back by `extract_hist`
(`drive4data/graph/charge.py`). -/
structure ChargeRecord where
  time : ℚ
  duration : ℚ
  soc_start : Option ℚ
  soc_end : Option ℚ
deriving DecidableEq, Repr

/-- The aggregate charge histogram dataset
(`webike.data.ChargeCycle.HIST_DATA` buckets touched by `extract_hist`). -/
structure ChargeHist where
  start_times : List ℕ
  start_weekday : List ℕ
  start_month : List ℕ
  durations : List ℤ
  end_times : List ℕ
  initial_soc : List ℚ
  final_soc : List ℚ
deriving DecidableEq, Repr

/-- The per-cycle body of `extract_hist` (`drive4data/graph/charge.py`):
five unconditional appends, then the unguarded `float(cycle['soc_start'])`
and `float(cycle['soc_end'])` appends — a missing (or `None`) SoC raises,
leaving the five earlier appends already applied (the error carries the
partially updated dataset, mirroring the in-place mutation). -/
def extract_hist_charge (cal : Calendar) (ε : TimeEpoch) (h : ChargeHist)
    (cycle : ChargeRecord) : Except (PyErr × ChargeHist) ChargeHist :=
  let trip_time := cycle.time * TO_SECONDS ε
  let duration := cycle.duration * TO_SECONDS TimeEpoch.n
  let h5 : ChargeHist :=
    ⟨h.start_times ++ [cal.to_hour_bin trip_time],
     h.start_weekday ++ [cal.weekday trip_time],
     h.start_month ++ [cal.month trip_time],
     h.durations ++ [pyRound (duration / TO_SECONDS TimeEpoch.m)],
     h.end_times ++ [cal.to_hour_bin (trip_time + duration)],
     h.initial_soc, h.final_soc⟩
  match cycle.soc_start with
  | none => Except.error (PyErr.typeError, h5)
  | some s0 =>
    let h6 : ChargeHist :=
      ⟨h5.start_times, h5.start_weekday, h5.start_month, h5.durations, h5.end_times,
       h5.initial_soc ++ [s0], h5.final_soc⟩
    match cycle.soc_end with
    | none => Except.error (PyErr.typeError, h6)
    | some s1 =>
      Except.ok
        ⟨h6.start_times, h6.start_weekday, h6.start_month, h6.durations, h6.end_times,
         h6.initial_soc, h6.final_soc ++ [s1]⟩

/-- A trivial concrete calendar used to instantiate the histogram
theorems. -/
def cal0 : Calendar := ⟨fun _ => 0, fun _ => 0, fun _ => 0⟩

/-- The empty charge histogram dataset. -/
def chargeHist0 : ChargeHist := ⟨[], [], [], [], [], [], []⟩

/-- The empty trip histogram dataset. -/
def tripHist0 : TripHist := ⟨[], [], [], [], [], [], [], []⟩

/-- A stored charge cycle lacking its `soc_start` field. -/
def cexChargeRecord : ChargeRecord := ⟨0, 0, none, some 50⟩

/-- A stored trip with every optional field missing. -/
def wTripRecord : TripRecord := ⟨0, 0, none, none, none, none⟩

/-- A stored charge cycle with both SoC fields present. -/
def wChargeRecord : ChargeRecord := ⟨0, 0, some 40, some 90⟩

/-- One cached coverage entry (`drive4data/initialization/post_import.py`):
the inner dict keyed by `'first'`, `'last'`, `'min_soc'`, `'max_soc'` and
`'counts'`. -/
structure CoverageEntry where
  first : Option ℚ
  last : Option ℚ
  min_soc : Option ℚ
  max_soc : Option ℚ
  counts : Stats

/-- One rendered coverage export record. -/
structure CoverageRecord where
  key : String
  first : ℚ
  last : ℚ
  duration : ℚ
  min_soc : Option ℚ
  max_soc : Option ℚ
  counts : Stats

/-- The per-entry body of the generator returned by `analyze`
(`drive4data/initialization/post_import.py`): `v.get('first') / 86400 +
25569` and the like — a missing `first`/`last` would be `None` and raise a
`TypeError` in the arithmetic; `min_soc`, `max_soc` and the counts are
passed through untouched. -/
def render_record (k : String) (v : CoverageEntry) : Except PyErr CoverageRecord := do
  let f ← pyGetNum v.first
  let l ← pyGetNum v.last
  Except.ok ⟨k, f / 86400 + 25569, l / 86400 + 25569, (l - f) / 86400, v.min_soc, v.max_soc,
    v.counts⟩

/-- A coverage entry covering exactly one day starting at the epoch. -/
def wCoverageEntry : CoverageEntry := ⟨some 0, some 86400, none, none, fun _ => none⟩

/-- One call to `client.write_points` recorded against the store: the
serialized points, the `detector` tag and the time precision. -/
structure WriteCall (Point : Type) where
  points : List Point
  detector_tag : String
  time_precision : TimeEpoch

/-- The detector object as `preprocess_cycle` uses it: its attribute name,
its invocation on a sample stream returning (accepted, discarded) cycle
lists, and its `cycles_to_timeseries` serialization into store points for a
measurement name (all supplied by the engine boundary). -/
structure CycleDetector (S C P : Type) where
  attr : String
  detect : List S → List C × List C
  cycles_to_timeseries : List C → String → List P

/-- `preprocess_cycle` (`drive4data/data/charge.py`): run detection over
the streamed samples; unless `dry_run` is set, write the accepted plus
discarded cycles to the `charge_cycles` measurement tagged with the
detector's attribute; return `(attr, series index, accepted count,
discarded count)`.  The store's write path is the explicit `writes` log. -/
def preprocess_cycle {S C P : Type} (ε : TimeEpoch) (nr : ℕ) (detector : CycleDetector S C P)
    (stream : List S) (dry_run : Bool) (writes : List (WriteCall P)) :
    List (WriteCall P) × (String × ℕ × ℕ × ℕ) :=
  let cycles := (detector.detect stream).1
  let cycles_disc := (detector.detect stream).2
  let writes2 :=
    if dry_run then writes
    else writes ++
      [⟨detector.cycles_to_timeseries (cycles ++ cycles_disc) "charge_cycles", detector.attr, ε⟩]
  (writes2, (detector.attr, nr, cycles.length, cycles_disc.length))

/-- One row of the final summary table: (attribute, series index, accepted
count, discarded count). -/
abbrev ChargeRow : Type := String × ℕ × ℕ × ℕ

/-- The per-attribute result rows as `preprocess_cycles` collects them: one
task per series, submitted in ascending series order (`enumerate(series)`),
each returning `(attr, nr, accepted, discarded)`.  `f` abstracts the counts
a task reports. -/
def chargeBlock (attr : String) (f : String → ℕ → ℕ × ℕ) (count : ℕ) : List ChargeRow :=
  (List.range count).map (fun nr => (attr, nr, (f attr nr).1, (f attr nr).2))

/-- The four detector attributes, in the order the `preprocess_cycles` loop
submits them. -/
def chargeDetectorAttrs : List String :=
  ["charger_acvoltage", "ischarging", "ac_hvpower", "hvbatt_soc"]

/-- The collected `data` list of `preprocess_cycles`: futures are grouped
per attribute, in ascending series order within each group, and
`[f.result() for f in futures]` preserves that order. -/
def chargeResults (f : String → ℕ → ℕ × ℕ) (count : ℕ) : List ChargeRow :=
  chargeDetectorAttrs.flatMap (fun attr => chargeBlock attr f count)

/-- `data.sort(key=lambda a: a[0:1])`: Python's `list.sort` is a stable
sort whose key here is the 1-tuple holding only the attribute, so rows
compare by attribute alone.  Insertion sort placing each earlier element
before later equal-key elements is a stable sort, and Mathlib's
`List.insertionSort` does exactly that. -/
def summarySort (l : List ChargeRow) : List ChargeRow :=
  List.insertionSort (fun a b => a.1 ≤ b.1) l

/-- The final summary table logged by `preprocess_cycles`. -/
def preprocess_cycles_table (f : String → ℕ → ℕ × ℕ) (count : ℕ) : List ChargeRow :=
  summarySort (chargeResults f count)

/-- Sorted by attribute, then strictly by series index within an
attribute. -/
def rowLex (a b : ChargeRow) : Prop := a.1 < b.1 ∨ (a.1 = b.1 ∧ a.2.1 < b.2.1)

/-- The stability invariant of the collected rows: rows with equal
attributes appear in ascending series order. -/
def rowStable (a b : ChargeRow) : Prop := a.1 = b.1 → a.2.1 < b.2.1

/-- C1: for the base charge-cycle detector with default parameters, `is_end`
fires exactly on movement (`veh_speed` present and positive) or an elapsed
duration from the previous sample strictly above `max_delay = 3600` seconds;
this bounds how long an open charge cycle may continue without the end
condition firing. -/
theorem c1_is_end_iff_movement_or_delay (ε : TimeEpoch) (st : ℚ) (s previous : Sample) :
    (is_end (chargeCycleInit ε none none none) st s previous).2.2 = true ↔
      ((∃ v, s.veh_speed = some v ∧ 0 < v) ∨ get_duration ε previous s > 3600) := by
  cases hv : s.veh_speed with
  | none => simp [is_end, check_movement, chargeCycleInit, hv]
  | some v =>
    by_cases hpos : 0 < v <;>
      simp [is_end, check_movement, chargeCycleInit, hv, hpos]

/-- C2: for a completed cycle whose boundary samples agree on
`last_movement` (the invariant precondition; disagreement is an assertion
failure), `check_reject_reason` yields `"delta_soc<10%"` whenever the SoC
gain `soc_stop - soc_start` is below 10 — regardless of the base-class
test, which is only consulted when the gain is at least 10. -/
theorem c2_check_reject_reason_delta_soc (base_reject : Cycle → Option String) (c : Cycle)
    (lm soc_start soc_stop : ℚ)
    (h1 : c.start.last_movement = some lm) (h2 : c.stop.last_movement = some lm)
    (h3 : c.start.hvbatt_soc = some soc_start) (h4 : c.stop.hvbatt_soc = some soc_stop) :
    check_reject_reason base_reject c =
      Except.ok (if soc_stop - soc_start < 10 then some "delta_soc<10%" else base_reject c) := by
  by_cases hsoc : soc_stop - soc_start < 10 <;>
    simp [check_reject_reason, pyGet, h1, h2, h3, h4, hsoc, Bind.bind, Except.bind]

/-- Witness for C2 at a concrete cycle: SoC gain 5 < 10, so the reject
reason is `"delta_soc<10%"` no matter what the base class would say. -/
theorem c2_check_reject_reason_delta_soc_witness :
    check_reject_reason (fun _ => none) ⟨wStartSample, wStopSample⟩ =
      Except.ok (some "delta_soc<10%") := by
  have h := c2_check_reject_reason_delta_soc (fun _ => none) ⟨wStartSample, wStopSample⟩
    0 50 55 rfl rfl rfl rfl
  norm_num at h
  exact h

/-- C3: for adjacent cycles that each satisfy the `last_movement` invariant,
`can_merge` succeeds exactly when the base-class merge test passes, the SoC
at the new cycle's start is not more than 2 points below the SoC at the
prior cycle's end, and the new cycle's `last_movement` does not exceed the
prior cycle's end time — so movement strictly between the cycles refuses
the merge. -/
theorem c3_can_merge_iff (base_can_merge : Cycle → Cycle → Bool) (lc nc : Cycle)
    (soc_last soc_new lm_l lm_n : ℚ)
    (h1 : nc.start.hvbatt_soc = some soc_new) (h2 : lc.stop.hvbatt_soc = some soc_last)
    (h3 : lc.start.last_movement = some lm_l) (h4 : lc.stop.last_movement = some lm_l)
    (h5 : nc.start.last_movement = some lm_n) (h6 : nc.stop.last_movement = some lm_n) :
    can_merge base_can_merge lc nc = Except.ok true ↔
      (base_can_merge lc nc = true ∧ -2 ≤ soc_new - soc_last ∧ lm_n ≤ lc.stop.time) := by
  cases hb : base_can_merge lc nc
  · simp [can_merge, hb]
  · by_cases hsoc : soc_new - soc_last < -2
    · simp [can_merge, hb, h1, h2, h3, h4, h5, h6, pyGet, hsoc, Bind.bind, Except.bind]
      intro h
      linarith
    · by_cases hlm : lm_n > lc.stop.time
      · simp [can_merge, hb, h1, h2, h3, h4, h5, h6, pyGet, hsoc, hlm, Bind.bind, Except.bind]
      · simp [can_merge, hb, h1, h2, h3, h4, h5, h6, pyGet, hsoc, hlm, Bind.bind, Except.bind]
        exact ⟨by linarith, not_lt.mp hlm⟩

/-- Witness for C3 at concrete cycles: base test passes, SoC drop is 1 ≤ 2,
no movement after the prior cycle's end, so the merge is allowed. -/
theorem c3_can_merge_iff_witness :
    can_merge (fun _ _ => true) wLastCycle wNewCycle = Except.ok true := by
  exact (c3_can_merge_iff (fun _ _ => true) wLastCycle wNewCycle
      70 69 0 0 rfl rfl rfl rfl rfl rfl).mpr
    ⟨rfl, by norm_num, by norm_num [wLastCycle]⟩

/-- C4 counterexample: the derivative detector's time step is hard-coded to
the hours-to-nanoseconds factor `TO_SECONDS['h'] / TO_SECONDS['n'] =
3.6e12`; for a store configured with epoch unit `'s'` the claimed
"hours-to-native-unit conversion factor for the configured time_epoch"
would be 3600, which the source does not use. -/
theorem c4_delta_time_counterexample :
    derivDiffArgs.delta_time = 3600 * 1000000000 ∧
      claimedDerivDeltaTime TimeEpoch.s = 3600 ∧
      derivDiffArgs.delta_time ≠ claimedDerivDeltaTime TimeEpoch.s := by
  refine ⟨?_, ?_, ?_⟩ <;> norm_num [derivDiffArgs, claimedDerivDeltaTime, TO_SECONDS]

/-- C4 (amended): the SoC-derivative variant smooths `hvbatt_soc` into
`soc_smooth` with `alpha = 0.95`, then differentiates `soc_smooth` into
`soc_diff` over a time step of 1 hour expressed in nanoseconds
(`TO_SECONDS['h'] / TO_SECONDS['n']`, independent of the configured
`time_epoch`), before running the base detection; its `max_merge_gap`
defaults to 2 hours. -/
theorem c4_deriv_pipeline (ε : TimeEpoch) {σ ρ : Type}
    (smooth : SmoothArgs → σ → σ) (differentiate : DiffArgs → σ → σ)
    (base_call : σ → ρ) (cycle_samples : σ) :
    chargeCycleDerivCall smooth differentiate base_call cycle_samples =
        base_call (differentiate derivDiffArgs (smooth derivSmoothArgs cycle_samples)) ∧
      derivSmoothArgs = ⟨"hvbatt_soc", "soc_smooth", 95 / 100⟩ ∧
      derivDiffArgs.attr_source = "soc_smooth" ∧
      derivDiffArgs.attr_target = "soc_diff" ∧
      derivDiffArgs.delta_time = TO_SECONDS TimeEpoch.h / TO_SECONDS TimeEpoch.n ∧
      (chargeCycleDerivInit ε none none none).max_merge_gap = 7200 :=
  ⟨rfl, rfl, rfl, rfl, rfl, rfl⟩

theorem setStat_lookup_self (s : Stats) (k : String) (v : ℚ) : setStat s k v k = some v := by
  simp [setStat]

theorem setStat_lookup_other (s : Stats) (k : String) (v : ℚ) (k2 : String) (h : k2 ≠ k) :
    setStat s k v k2 = s k2 := by
  simp [setStat, h]

theorem truthy_iff_holdsNonZero (o : Option ℚ) : truthy o = true ↔ holdsNonZero o := by
  cases o <;> simp [truthy, holdsNonZero]

theorem truthy_getD (o : Option ℚ) (h : truthy o = true) : o = some (o.getD 0) := by
  cases o with
  | none => simp [truthy] at h
  | some v => rfl

theorem merge_avg_lookup_other (name : String) (stats stats1 stats2 : Stats) (k : String)
    (h : k ≠ name) : merge_avg name stats stats1 stats2 k = stats k := by
  unfold merge_avg
  split_ifs <;> simp [setStat, h]

theorem merge_avg_lookup_self (name : String) (stats stats1 stats2 : Stats) :
    merge_avg name stats stats1 stats2 name = mergedAvgSpec name stats1 stats2 stats := by
  unfold merge_avg mergedAvgSpec
  split_ifs with hb h1 h2
  · simp [setStat]
  · rw [setStat_lookup_self]
    exact (truthy_getD _ h1).symm
  · rw [setStat_lookup_self]
    exact (truthy_getD _ h2).symm
  · rfl

theorem mergedAvgSpec_congr_base (name : String) (stats1 stats2 base1 base2 : Stats)
    (h : base1 name = base2 name) :
    mergedAvgSpec name stats1 stats2 base1 = mergedAvgSpec name stats1 stats2 base2 := by
  unfold mergedAvgSpec
  split_ifs <;> simp [h]

/-- C6 counterexample: merging an accumulator whose `avg_current` is 0.0
with one whose `avg_current` is 10 yields 10, not the unweighted mean
(0 + 10) / 2 = 5 — truthiness treats the stored 0.0 as absent. -/
theorem c6_merge_counterexample :
    (merge_stats (fun _ _ => fun _ => none) cexStats1 cexStats2).map
        (fun st => st "avg_current") = Except.ok (some 10) ∧
      some (10 : ℚ) ≠ some (((0 : ℚ) + 10) / 2) := by
  constructor
  · rfl
  · norm_num

/-- C6 (amended): `make_avg` replaces a stored average by the unweighted
two-point mean (or initializes it), and `merge_stats` sums `est_distance`
and combines each of the four running averages (ignoring sample counts) as
the unweighted mean when both sides hold a non-zero value, as the lone
non-zero value when exactly one side does, and as the base-class slot
otherwise. -/
theorem c6_make_avg_and_merge_stats (base_merge : Stats → Stats → Stats) (s1 s2 : Stats)
    (d1 d2 : ℚ) (h1 : s1 "est_distance" = some d1) (h2 : s2 "est_distance" = some d2) :
    (∀ acc name v, make_avg acc name (some v) name =
        some (match acc name with | some old => (old + v) / 2 | none => v)) ∧
      ∃ st, merge_stats base_merge s1 s2 = Except.ok st ∧
        st "est_distance" = some (d1 + d2) ∧
        st "avg_current" = mergedAvgSpec "avg_current" s1 s2 (base_merge s1 s2) ∧
        st "avg_voltage" = mergedAvgSpec "avg_voltage" s1 s2 (base_merge s1 s2) ∧
        st "avg_fuel_rate" = mergedAvgSpec "avg_fuel_rate" s1 s2 (base_merge s1 s2) ∧
        st "temp_avg" = mergedAvgSpec "temp_avg" s1 s2 (base_merge s1 s2) := by
  constructor
  · intro acc name v
    cases h : acc name <;> simp [make_avg, h, setStat]
  · have hrun : merge_stats base_merge s1 s2 = Except.ok
        (merge_avg "temp_avg"
          (merge_avg "avg_fuel_rate"
            (merge_avg "avg_voltage"
              (merge_avg "avg_current"
                (setStat (base_merge s1 s2) "est_distance" (d1 + d2)) s1 s2) s1 s2) s1 s2)
          s1 s2) := by
      simp [merge_stats, h1, h2, pyGet, Bind.bind, Except.bind]
    refine ⟨_, hrun, ?_, ?_, ?_, ?_, ?_⟩
    · rw [merge_avg_lookup_other _ _ _ _ _ (by decide), merge_avg_lookup_other _ _ _ _ _ (by decide),
        merge_avg_lookup_other _ _ _ _ _ (by decide), merge_avg_lookup_other _ _ _ _ _ (by decide),
        setStat_lookup_self]
    · rw [merge_avg_lookup_other _ _ _ _ _ (by decide), merge_avg_lookup_other _ _ _ _ _ (by decide),
        merge_avg_lookup_other _ _ _ _ _ (by decide), merge_avg_lookup_self]
      exact mergedAvgSpec_congr_base _ _ _ _ _ (setStat_lookup_other _ _ _ _ (by decide))
    · rw [merge_avg_lookup_other _ _ _ _ _ (by decide), merge_avg_lookup_other _ _ _ _ _ (by decide),
        merge_avg_lookup_self]
      refine mergedAvgSpec_congr_base _ _ _ _ _ ?_
      rw [merge_avg_lookup_other _ _ _ _ _ (by decide),
        setStat_lookup_other _ _ _ _ (by decide)]
    · rw [merge_avg_lookup_other _ _ _ _ _ (by decide), merge_avg_lookup_self]
      refine mergedAvgSpec_congr_base _ _ _ _ _ ?_
      rw [merge_avg_lookup_other _ _ _ _ _ (by decide), merge_avg_lookup_other _ _ _ _ _ (by decide),
        setStat_lookup_other _ _ _ _ (by decide)]
    · rw [merge_avg_lookup_self]
      refine mergedAvgSpec_congr_base _ _ _ _ _ ?_
      rw [merge_avg_lookup_other _ _ _ _ _ (by decide), merge_avg_lookup_other _ _ _ _ _ (by decide),
        merge_avg_lookup_other _ _ _ _ _ (by decide), setStat_lookup_other _ _ _ _ (by decide)]

/-- Witness for C6 (amended) at concrete accumulators: distances 1 and 2
sum to 3, and the averages 0.0 (falsy) and 10 merge to the lone value
10. -/
theorem c6_make_avg_and_merge_stats_witness :
    ∃ st, merge_stats (fun _ _ => fun _ => none) cexStats1 cexStats2 = Except.ok st ∧
      st "est_distance" = some 3 ∧ st "avg_current" = some 10 := by
  obtain ⟨-, st, hrun, hest, hcur, -⟩ :=
    c6_make_avg_and_merge_stats (fun _ _ => fun _ => none) cexStats1 cexStats2 1 2 rfl rfl
  refine ⟨st, hrun, by rw [hest]; norm_num, ?_⟩
  rw [hcur]
  simp [mergedAvgSpec, truthy, cexStats1, cexStats2]

/-- C10: in `merge_avg`, presence of an average is decided by Python
truthiness, so a stored 0.0 counts as absent: both sides non-zero gives the
unweighted midpoint; exactly one side non-zero gives that side's value
unchanged (even when the other side stores 0.0); neither side non-zero
leaves the stats dict untouched, so `merge_avg` itself contributes no entry
for the name. -/
theorem c10_merge_avg_truthiness (name : String) (stats stats1 stats2 : Stats)
    (o1 o2 : Option ℚ) (h1 : stats1 name = o1) (h2 : stats2 name = o2) :
    (holdsNonZero o1 → holdsNonZero o2 →
        merge_avg name stats stats1 stats2 =
          setStat stats name ((o1.getD 0 + o2.getD 0) / 2)) ∧
      (holdsNonZero o1 → ¬ holdsNonZero o2 →
        merge_avg name stats stats1 stats2 = setStat stats name (o1.getD 0)) ∧
      (¬ holdsNonZero o1 → holdsNonZero o2 →
        merge_avg name stats stats1 stats2 = setStat stats name (o2.getD 0)) ∧
      (¬ holdsNonZero o1 → ¬ holdsNonZero o2 →
        merge_avg name stats stats1 stats2 = stats ∧
          (stats name = none → merge_avg name stats stats1 stats2 name = none)) := by
  refine ⟨fun hz1 hz2 => ?_, fun hz1 hz2 => ?_, fun hz1 hz2 => ?_, fun hz1 hz2 => ?_⟩
  · have e1 : truthy o1 = true := (truthy_iff_holdsNonZero o1).mpr hz1
    have e2 : truthy o2 = true := (truthy_iff_holdsNonZero o2).mpr hz2
    simp [merge_avg, h1, h2, e1, e2]
  · have e1 : truthy o1 = true := (truthy_iff_holdsNonZero o1).mpr hz1
    have e2 : truthy o2 = false :=
      Bool.eq_false_iff.mpr (fun h => hz2 ((truthy_iff_holdsNonZero o2).mp h))
    simp [merge_avg, h1, h2, e1, e2]
  · have e1 : truthy o1 = false :=
      Bool.eq_false_iff.mpr (fun h => hz1 ((truthy_iff_holdsNonZero o1).mp h))
    have e2 : truthy o2 = true := (truthy_iff_holdsNonZero o2).mpr hz2
    simp [merge_avg, h1, h2, e1, e2]
  · have e1 : truthy o1 = false :=
      Bool.eq_false_iff.mpr (fun h => hz1 ((truthy_iff_holdsNonZero o1).mp h))
    have e2 : truthy o2 = false :=
      Bool.eq_false_iff.mpr (fun h => hz2 ((truthy_iff_holdsNonZero o2).mp h))
    have hu : merge_avg name stats stats1 stats2 = stats := by
      simp [merge_avg, h1, h2, e1, e2]
    exact ⟨hu, fun hn => by rw [hu]; exact hn⟩

/-- Witness for C10 at concrete accumulators: `avg_current` 10 against a
stored 0.0 merges to 10 unchanged, and `temp_avg` (held by neither side)
leaves the target dict untouched. -/
theorem c10_merge_avg_truthiness_witness :
    merge_avg "avg_current" (fun _ => none) cexStats2 cexStats1 =
        setStat (fun _ => none) "avg_current" 10 ∧
      merge_avg "temp_avg" (fun _ => none) cexStats2 cexStats1 = (fun _ => none) := by
  constructor
  · refine (c10_merge_avg_truthiness "avg_current" (fun _ => none) cexStats2 cexStats1
      (some 10) (some 0) rfl rfl).2.1 ⟨10, rfl, by norm_num⟩ ?_
    rintro ⟨v, hv, hnz⟩
    cases hv
    exact hnz rfl
  · refine ((c10_merge_avg_truthiness "temp_avg" (fun _ => none) cexStats2 cexStats1
      none none rfl rfl).2.2.2 ?_ ?_).1
    · rintro ⟨v, hv, -⟩
      cases hv
    · rintro ⟨v, hv, -⟩
      cases hv

theorem appendOpt_length (l : List ℚ) (o : Option ℚ) :
    (appendOpt l o).length = l.length + (if o.isSome then 1 else 0) := by
  cases o <;> simp [appendOpt]

/-- C5 counterexample: the charge-cycle histogram extractor does not skip a
missing SoC field — on a stored cycle without `soc_start` it raises after
the five unconditional appends. -/
theorem c5_charge_missing_soc_counterexample :
    extract_hist_charge cal0 TimeEpoch.s chargeHist0 cexChargeRecord =
      Except.error (PyErr.typeError, ⟨[0], [0], [0], [0], [0], [], []⟩) := by
  norm_num [extract_hist_charge, cexChargeRecord, cal0, chargeHist0, pyRound, TO_SECONDS]

/-- C5 (amended): the trip histogram extractor appends exactly one entry to
each unconditional bucket (start hour, weekday, month, rounded duration)
per stored event and skips missing optional fields (distance, temperature,
initial/final SoC) without error; the charge-cycle extractor appends one
entry to each of its five unconditional buckets (start hour, weekday,
month, rounded duration, end hour) and appends the initial and final SoC
unconditionally, succeeding only when both SoC fields are present. -/
theorem c5_extract_hist_buckets (cal : Calendar) (ε : TimeEpoch)
    (ht : TripHist) (t : TripRecord) (hc : ChargeHist) (c : ChargeRecord) (s0 s1 : ℚ)
    (hs0 : c.soc_start = some s0) (hs1 : c.soc_end = some s1) :
    ((extract_hist_trips cal ε ht t).start_times.length = ht.start_times.length + 1 ∧
      (extract_hist_trips cal ε ht t).start_weekday.length = ht.start_weekday.length + 1 ∧
      (extract_hist_trips cal ε ht t).start_month.length = ht.start_month.length + 1 ∧
      (extract_hist_trips cal ε ht t).durations.length = ht.durations.length + 1 ∧
      (extract_hist_trips cal ε ht t).distances.length =
        ht.distances.length + (if t.est_distance.isSome then 1 else 0) ∧
      (extract_hist_trips cal ε ht t).trip_temp.length =
        ht.trip_temp.length + (if t.outside_air_temp.isSome then 1 else 0) ∧
      (extract_hist_trips cal ε ht t).initial_soc.length =
        ht.initial_soc.length + (if t.soc_start.isSome then 1 else 0) ∧
      (extract_hist_trips cal ε ht t).final_soc.length =
        ht.final_soc.length + (if t.soc_end.isSome then 1 else 0)) ∧
    ∃ h2, extract_hist_charge cal ε hc c = Except.ok h2 ∧
      h2.start_times.length = hc.start_times.length + 1 ∧
      h2.start_weekday.length = hc.start_weekday.length + 1 ∧
      h2.start_month.length = hc.start_month.length + 1 ∧
      h2.durations.length = hc.durations.length + 1 ∧
      h2.end_times.length = hc.end_times.length + 1 ∧
      h2.initial_soc.length = hc.initial_soc.length + 1 ∧
      h2.final_soc.length = hc.final_soc.length + 1 := by
  constructor
  · refine ⟨by simp [extract_hist_trips], by simp [extract_hist_trips],
      by simp [extract_hist_trips], by simp [extract_hist_trips], ?_, ?_, ?_, ?_⟩ <;>
      simp [extract_hist_trips, appendOpt_length]
  · have hrun : extract_hist_charge cal ε hc c = Except.ok
        ⟨hc.start_times ++ [cal.to_hour_bin (c.time * TO_SECONDS ε)],
         hc.start_weekday ++ [cal.weekday (c.time * TO_SECONDS ε)],
         hc.start_month ++ [cal.month (c.time * TO_SECONDS ε)],
         hc.durations ++ [pyRound (c.duration * TO_SECONDS TimeEpoch.n / TO_SECONDS TimeEpoch.m)],
         hc.end_times ++
           [cal.to_hour_bin (c.time * TO_SECONDS ε + c.duration * TO_SECONDS TimeEpoch.n)],
         hc.initial_soc ++ [s0], hc.final_soc ++ [s1]⟩ := by
      simp [extract_hist_charge, hs0, hs1]
    exact ⟨_, hrun, by simp, by simp, by simp, by simp, by simp, by simp, by simp⟩

/-- Witness for C5 (amended): a trip with every optional field missing
still yields one entry per unconditional bucket and no optional entries,
and a charge cycle with both SoC fields present succeeds with one entry
everywhere. -/
theorem c5_extract_hist_buckets_witness :
    (extract_hist_trips cal0 TimeEpoch.s tripHist0 wTripRecord).start_times.length = 1 ∧
      (extract_hist_trips cal0 TimeEpoch.s tripHist0 wTripRecord).distances.length = 0 ∧
      ∃ h2, extract_hist_charge cal0 TimeEpoch.s chargeHist0 wChargeRecord = Except.ok h2 ∧
        h2.initial_soc.length = 1 := by
  obtain ⟨⟨ha, -, -, -, hb, -, -, -⟩, h2, hrun, -, -, -, -, -, hsoc, -⟩ :=
    c5_extract_hist_buckets cal0 TimeEpoch.s tripHist0 wTripRecord chargeHist0 wChargeRecord
      40 90 rfl rfl
  refine ⟨by simpa [tripHist0] using ha, by simpa [tripHist0, wTripRecord] using hb,
    h2, hrun, by simpa [chargeHist0] using hsoc⟩

/-- C7: a cached coverage entry with numeric first and last sample times in
seconds renders to `first = first/86400 + 25569`, `last = last/86400 +
25569` and `duration = (last - first)/86400`. -/
theorem c7_render_record (k : String) (v : CoverageEntry) (f l : ℚ)
    (hf : v.first = some f) (hl : v.last = some l) :
    render_record k v =
      Except.ok ⟨k, f / 86400 + 25569, l / 86400 + 25569, (l - f) / 86400,
        v.min_soc, v.max_soc, v.counts⟩ := by
  simp [render_record, pyGetNum, hf, hl, Bind.bind, Except.bind]

/-- Witness for C7 at the claim's concrete entry: `first = 0`, `last =
86400` renders to `first = 25569`, `last = 25570`, `duration = 1`. -/
theorem c7_render_record_witness :
    ∃ rec, render_record "participant=1,car_id=2" wCoverageEntry = Except.ok rec ∧
      rec.first = 25569 ∧ rec.last = 25570 ∧ rec.duration = 1 := by
  refine ⟨_, c7_render_record "participant=1,car_id=2" wCoverageEntry 0 86400 rfl rfl,
    by norm_num, by norm_num, by norm_num⟩

/-- C8: with `dry_run = true`, `preprocess_cycle` performs detection and
returns `(attr, series index, accepted count, discarded count)` while the
store's write log is left untouched; with `dry_run = false` exactly one
write of the accepted plus discarded cycles, serialized for the
`charge_cycles` measurement and tagged with the detector's attribute, is
appended. -/
theorem c8_preprocess_cycle_dry_run {S C P : Type} (ε : TimeEpoch) (nr : ℕ)
    (detector : CycleDetector S C P) (stream : List S) (writes : List (WriteCall P)) :
    (preprocess_cycle ε nr detector stream true writes).1 = writes ∧
      (preprocess_cycle ε nr detector stream true writes).2 =
        (detector.attr, nr, (detector.detect stream).1.length,
          (detector.detect stream).2.length) ∧
      (preprocess_cycle ε nr detector stream false writes).1 =
        writes ++
          [⟨detector.cycles_to_timeseries
              ((detector.detect stream).1 ++ (detector.detect stream).2) "charge_cycles",
            detector.attr, ε⟩] ∧
      (preprocess_cycle ε nr detector stream false writes).2 =
        (preprocess_cycle ε nr detector stream true writes).2 :=
  ⟨rfl, rfl, rfl, rfl⟩

theorem rowLex_key_le {a b : ChargeRow} (h : rowLex a b) : a.1 ≤ b.1 := by
  rcases h with h | ⟨h, -⟩
  · exact le_of_lt h
  · exact le_of_eq h

theorem orderedInsert_pairwise_rowLex (x : ChargeRow) (l : List ChargeRow)
    (hl : l.Pairwise rowLex) (hx : ∀ y ∈ l, rowStable x y) :
    (List.orderedInsert (fun a b => a.1 ≤ b.1) x l).Pairwise rowLex := by
  induction l with
  | nil => simp [List.orderedInsert, List.pairwise_singleton]
  | cons y ys ih =>
    rcases List.pairwise_cons.mp hl with ⟨hy, hys⟩
    by_cases hle : x.1 ≤ y.1
    · simp only [List.orderedInsert, if_pos hle]
      refine List.pairwise_cons.mpr ⟨?_, hl⟩
      intro z hz
      rcases List.mem_cons.mp hz with rfl | hz2
      · rcases lt_or_eq_of_le hle with hlt | heq
        · exact Or.inl hlt
        · exact Or.inr ⟨heq, hx z (List.mem_cons_self z ys) heq⟩
      · have hxz : x.1 ≤ z.1 := le_trans hle (rowLex_key_le (hy z hz2))
        rcases lt_or_eq_of_le hxz with hlt | heq
        · exact Or.inl hlt
        · exact Or.inr ⟨heq, hx z (List.mem_cons_of_mem y hz2) heq⟩
    · simp only [List.orderedInsert, if_neg hle]
      have hyx : y.1 < x.1 := lt_of_not_le hle
      refine List.pairwise_cons.mpr
        ⟨?_, ih hys (fun z hz => hx z (List.mem_cons_of_mem y hz))⟩
      intro z hz
      rcases (List.mem_orderedInsert _).mp hz with rfl | hz2
      · exact Or.inl hyx
      · exact hy z hz2

theorem summarySort_pairwise_rowLex (l : List ChargeRow) (h : l.Pairwise rowStable) :
    (summarySort l).Pairwise rowLex := by
  induction l with
  | nil => simp [summarySort, List.insertionSort]
  | cons x xs ih =>
    rcases List.pairwise_cons.mp h with ⟨hx, hxs⟩
    have hstep : summarySort (x :: xs) =
        List.orderedInsert (fun a b => a.1 ≤ b.1) x (summarySort xs) := rfl
    rw [hstep]
    refine orderedInsert_pairwise_rowLex x (summarySort xs) (ih hxs) ?_
    intro y hy
    exact hx y ((List.mem_insertionSort _).mp hy)

theorem chargeBlock_pairwise_rowStable (attr : String) (f : String → ℕ → ℕ × ℕ) (count : ℕ) :
    (chargeBlock attr f count).Pairwise rowStable := by
  unfold chargeBlock
  rw [List.pairwise_map]
  refine (List.pairwise_lt_range count).imp ?_
  intro a b hab
  exact fun _ => hab

theorem chargeBlock_mem_key {a : ChargeRow} {attr : String} {f : String → ℕ → ℕ × ℕ}
    {count : ℕ} (h : a ∈ chargeBlock attr f count) : a.1 = attr := by
  unfold chargeBlock at h
  rcases List.mem_map.mp h with ⟨nr, -, rfl⟩
  rfl

theorem rowStable_of_ne_keys {a b : ChargeRow} {k1 k2 : String} (ha : a.1 = k1)
    (hb : b.1 = k2) (hne : k1 ≠ k2) : rowStable a b := by
  intro h
  exact absurd (ha ▸ hb ▸ h) hne

theorem chargeResults_pairwise_rowStable (f : String → ℕ → ℕ × ℕ) (count : ℕ) :
    (chargeResults f count).Pairwise rowStable := by
  have hcross : ∀ {k1 k2 : String}, k1 ≠ k2 →
      ∀ a ∈ chargeBlock k1 f count, ∀ b ∈ chargeBlock k2 f count, rowStable a b :=
    fun hne a ha b hb =>
      rowStable_of_ne_keys (chargeBlock_mem_key ha) (chargeBlock_mem_key hb) hne
  unfold chargeResults chargeDetectorAttrs
  simp only [List.flatMap_cons, List.flatMap_nil, List.append_nil]
  refine List.pairwise_append.mpr ⟨chargeBlock_pairwise_rowStable _ f count, ?_, ?_⟩
  · refine List.pairwise_append.mpr ⟨chargeBlock_pairwise_rowStable _ f count, ?_, ?_⟩
    · refine List.pairwise_append.mpr
        ⟨chargeBlock_pairwise_rowStable _ f count, chargeBlock_pairwise_rowStable _ f count, ?_⟩
      intro a ha b hb
      exact hcross (by decide) a ha b hb
    · intro a ha b hb
      rcases List.mem_append.mp hb with hb2 | hb2
      · exact hcross (by decide) a ha b hb2
      · exact hcross (by decide) a ha b hb2
  · intro a ha b hb
    rcases List.mem_append.mp hb with hb2 | hb2
    · exact hcross (by decide) a ha b hb2
    · rcases List.mem_append.mp hb2 with hb3 | hb3
      · exact hcross (by decide) a ha b hb3
      · exact hcross (by decide) a ha b hb3

/-- C9: the charge-cycle summary table is a permutation of the rows
collected per attribute in ascending series order, and — because the rows
are grouped per attribute in ascending series order before the stable sort
by attribute — the sorted table is ordered by attribute and, within each
attribute, by ascending series index. -/
theorem c9_summary_table_sorted (f : String → ℕ → ℕ × ℕ) (count : ℕ) :
    List.Perm (preprocess_cycles_table f count) (chargeResults f count) ∧
      (preprocess_cycles_table f count).Pairwise rowLex :=
  ⟨List.perm_insertionSort _ _,
   summarySort_pairwise_rowLex _ (chargeResults_pairwise_rowStable f count)⟩

end Drive4data
